import Mathlib

/-!
Verification of the logging static file server in
src/script/simple-server.py.

The script subclasses the stock static-file request handler, overriding only
do_GET to first log the raw request header block and then delegate to the
inherited GET logic, and it starts a TCP server on host "" (all interfaces)
at the fixed port 3000 with serve_forever.

The four repository lines (the override, the port constant, and the server
construction) are translated from the source.  The inherited handler and the
socket bind live in the Python standard library, outside this repository, so
those parts are modelled from the spec; their doc comments say so.
-/

namespace SimpleServer

/-- Bytes of a served file or response body, one natural number per byte. -/
abbrev Bytes := List Nat

/-- Filesystem node under the working directory: a regular file with its byte
contents, or a directory with named children. -/
inductive FSNode where
  | file (contents : Bytes) : FSNode
  | dir (children : List (String × FSNode)) : FSNode

/-- An HTTP request as the handler sees it: method, URL path, and the raw
header block (the text that self.headers prints). -/
structure Request where
  method : String
  path : String
  headers : String

/-- An HTTP response: status code and body bytes. -/
structure Response where
  status : Nat
  body : Bytes
  deriving DecidableEq

/-- Split a list of characters into the words between slashes, the
accumulator holding the characters of the current word in reverse. -/
def splitSlashAux : List Char → List Char → List String
  | [], acc => [String.mk acc.reverse]
  | c :: rest, acc =>
    if c = '/' then String.mk acc.reverse :: splitSlashAux rest []
    else splitSlashAux rest (c :: acc)

/-- Words of a URL path after the cleaning the stock handler performs while
translating a path: split on slashes, then drop empty components and any "."
or ".." components, so resolution never leaves the working directory. -/
def cleanWords (path : String) : List String :=
  (splitSlashAux path.data []).filter (fun w => w != "" && w != "." && w != "..")

/-- Look up a direct child of a directory by name. -/
def lookupChild : List (String × FSNode) → String → Option FSNode
  | [], _ => none
  | (n, c) :: rest, w => if n = w then some c else lookupChild rest w

/-- Resolve a list of cleaned path words against a node by descending through
directory children only. -/
def resolveWords : List String → FSNode → Option FSNode
  | [], n => some n
  | _ :: _, FSNode.file _ => none
  | w :: ws, FSNode.dir cs =>
    match lookupChild cs w with
    | some c => resolveWords ws c
    | none => none

/-- Bytes of one directory-listing entry for a child name: the characters of
the name followed by a newline. -/
def entryBytes (name : String) : Bytes :=
  name.toList.map Char.toNat ++ [10]

/-- Modelled from the spec: the auto-generated index listing the stock
handler produces for a directory, one entry per direct child. -/
def listingBody (children : List (String × FSNode)) : Bytes :=
  (children.map (fun p => entryBytes p.1)).flatten

/-- Modelled from the spec: the stock 404 error page body. -/
def notFoundBody : Bytes :=
  "File not found".toList.map Char.toNat

namespace SimpleHTTPRequestHandler

/-- Modelled from the spec: the inherited SimpleHTTPServer GET logic, which
is standard-library code outside this repository.  The URL path is resolved
inside the working directory; a regular file answers 200 with its exact
contents, a directory answers 200 with the index listing, and a missing path
answers 404. -/
def do_GET_resp (root : FSNode) (path : String) : Response :=
  match resolveWords (cleanWords path) root with
  | some (FSNode.file c) => ⟨200, c⟩
  | some (FSNode.dir cs) => ⟨200, listingBody cs⟩
  | none => ⟨404, notFoundBody⟩

/-- Modelled from the spec: the inherited HEAD logic serves the same status
and headers as the corresponding GET, with an empty body. -/
def do_HEAD_resp (root : FSNode) (path : String) : Response :=
  ⟨(do_GET_resp root path).status, []⟩

/-- Modelled from the spec: dispatch of the inherited handler, answering 501
Not Implemented for any method it does not know. -/
def handleMethod (root : FSNode) (req : Request) : Response :=
  if req.method = "GET" then do_GET_resp root req.path
  else if req.method = "HEAD" then do_HEAD_resp root req.path
  else ⟨501, []⟩

end SimpleHTTPRequestHandler

/-- Observable state around the handler: the served tree (the working
directory) and the log stream, one string per emitted log line. -/
structure ServerState where
  root : FSNode
  log : List String

/-- Events in the order the handler performs them while serving one request. -/
inductive Event where
  | logged (line : String) : Event
  | responded (r : Response) : Event

namespace SimpleHTTPRequestHandler

/-- Modelled from the spec: the inherited do_GET performs no logging of its
own; its only event is producing the response. -/
def do_GET_events (root : FSNode) (path : String) : List Event :=
  [Event.responded (do_GET_resp root path)]

end SimpleHTTPRequestHandler

namespace GetHandler

/-- Translated from src/script/simple-server.py lines 10-12: the overriding
do_GET first logs the raw header block with logging.error(self.headers) and
then delegates to the inherited do_GET.  The event list records that order. -/
def do_GET_events (root : FSNode) (req : Request) : List Event :=
  Event.logged req.headers :: SimpleHTTPRequestHandler.do_GET_events root req.path

/-- Translated from src/script/simple-server.py: handling one request.  Only
do_GET is overridden, so a GET appends exactly one log line (the raw header
block) to the log and then yields the inherited GET response; every other
method is handled entirely by the inherited dispatch and logs nothing. -/
def handle (s : ServerState) (req : Request) : ServerState × Response :=
  if req.method = "GET" then
    (⟨s.root, s.log ++ [req.headers]⟩, SimpleHTTPRequestHandler.do_GET_resp s.root req.path)
  else
    (s, SimpleHTTPRequestHandler.handleMethod s.root req)

end GetHandler

/-- Translated from src/script/simple-server.py line 7: the fixed port. -/
def PORT : Nat := 3000

/-- Environment the bind call sees: the ports already in use on the machine
and whether the process has permission to bind. -/
structure BindEnv where
  portsInUse : List Nat
  canBind : Bool

/-- Outcome of starting the server. -/
inductive StartOutcome where
  | running (host : String) (port : Nat) : StartOutcome
  | bindErrorCrash : StartOutcome
  deriving DecidableEq

/-- Modelled from the spec: binding the TCP listening socket, which is
standard-library code outside this repository.  Binding fails when the port
is already in use or the process lacks permission; otherwise the socket is
bound to exactly the requested host and port. -/
def TCPServer_bind (env : BindEnv) (host : String) (port : Nat) :
    Option (String × Nat) :=
  if port ∈ env.portsInUse ∨ env.canBind = false then none
  else some (host, port)

/-- Translated from src/script/simple-server.py line 15 together with the
bind-failure semantics of the spec: the server binds host "" (all
interfaces) at PORT; a bind failure propagates unhandled and the process
crashes, with no retry and no alternate port. -/
def startServer (env : BindEnv) : StartOutcome :=
  match TCPServer_bind env "" PORT with
  | some (h, p) => StartOutcome.running h p
  | none => StartOutcome.bindErrorCrash

/-- Nodes reachable from a root by descending into directory children.
Served content being confined to the working directory is expressed as every
resolved node being reachable from the root. -/
inductive Reachable : FSNode → FSNode → Prop where
  | refl (n : FSNode) : Reachable n n
  | child (name : String) (c : FSNode) (cs : List (String × FSNode)) (m : FSNode) :
      (name, c) ∈ cs → Reachable c m → Reachable (FSNode.dir cs) m

/-- Sample working directory used by the concrete witnesses. -/
def sampleFS : FSNode :=
  FSNode.dir
    [("index.html", FSNode.file [60, 104, 49, 62]),
     ("sub", FSNode.dir [("a.txt", FSNode.file [97]), ("b.txt", FSNode.file [98])])]

/-- Helper: a successful child lookup finds a pair stored in the list. -/
lemma lookupChild_mem {cs : List (String × FSNode)} {w : String} {c : FSNode}
    (h : lookupChild cs w = some c) : ∃ nm, (nm, c) ∈ cs := by
  induction cs with
  | nil => simp [lookupChild] at h
  | cons hd tl ih =>
    obtain ⟨n, c0⟩ := hd
    simp only [lookupChild] at h
    split at h
    · obtain rfl : c0 = c := by simpa using h
      exact ⟨n, List.mem_cons_self _ _⟩
    · obtain ⟨nm, hm⟩ := ih h
      exact ⟨nm, List.mem_cons_of_mem _ hm⟩

/-- Helper: resolution only descends into children, so every resolved node is
reachable from the root. -/
lemma resolveWords_reachable :
    ∀ (ws : List String) (root n : FSNode),
      resolveWords ws root = some n → Reachable root n := by
  intro ws
  induction ws with
  | nil =>
    intro root n h
    simp only [resolveWords, Option.some.injEq] at h
    exact h ▸ Reachable.refl root
  | cons w ws ih =>
    intro root n h
    cases root with
    | file c => simp [resolveWords] at h
    | dir cs =>
      simp only [resolveWords] at h
      cases hl : lookupChild cs w with
      | none => rw [hl] at h; cases h
      | some ch =>
        rw [hl] at h
        obtain ⟨nm, hm⟩ := lookupChild_mem hl
        exact Reachable.child nm ch cs n hm (ih ch n h)

/-- Helper: the cleaned path words never contain a traversal component. -/
lemma not_dotdot_mem_cleanWords (path : String) : ".." ∉ cleanWords path := by
  intro h
  have hp := (List.mem_filter.mp h).2
  exact absurd hp (by decide)

/-- Helper: the listing body carries an entry for every member of the child
list, as a contiguous segment. -/
lemma mem_listing_segment {children : List (String × FSNode)} {p : String × FSNode}
    (h : p ∈ children) :
    ∃ pre post, listingBody children = pre ++ entryBytes p.1 ++ post := by
  induction children with
  | nil => cases h
  | cons hd tl ih =>
    rcases List.mem_cons.mp h with h1 | h2
    · refine ⟨[], (tl.map (fun q => entryBytes q.1)).flatten, ?_⟩
      rw [h1]
      simp [listingBody]
    · obtain ⟨pre, post, he⟩ := ih h2
      refine ⟨entryBytes hd.1 ++ pre, post, ?_⟩
      simp only [listingBody, List.map_cons, List.flatten_cons]
      rw [show listingBody tl = (tl.map (fun q => entryBytes q.1)).flatten from rfl] at he
      rw [he]
      simp [List.append_assoc]

/-- C1: every GET request makes the handler write exactly one log line, whose
content is the raw request header block, and the line is written before the
inherited static-file response logic produces the response. -/
theorem get_logs_header_block_once_before_response
    (s : ServerState) (req : Request) (hm : req.method = "GET") :
    GetHandler.do_GET_events s.root req =
      [Event.logged req.headers,
       Event.responded (SimpleHTTPRequestHandler.do_GET_resp s.root req.path)] ∧
    (GetHandler.handle s req).1.log = s.log ++ [req.headers] ∧
    (GetHandler.handle s req).2 = SimpleHTTPRequestHandler.do_GET_resp s.root req.path := by
  refine ⟨rfl, ?_, ?_⟩ <;> simp [GetHandler.handle, hm]

/-- Witness for C1 at a concrete request. -/
theorem get_logs_header_block_once_before_response_witness :
    (Request.mk "GET" "/index.html" "Host: localhost").method = "GET" ∧
    (GetHandler.handle ⟨sampleFS, []⟩ (Request.mk "GET" "/index.html" "Host: localhost")).1.log
      = [] ++ ["Host: localhost"] :=
  ⟨rfl,
   (get_logs_header_block_once_before_response ⟨sampleFS, []⟩
     (Request.mk "GET" "/index.html" "Host: localhost") rfl).2.1⟩

/-- C2: a GET whose path resolves to a regular file answers 200 with exactly
that file's bytes. -/
theorem get_existing_file_returns_exact_contents
    (root : FSNode) (path : String) (c : Bytes)
    (h : resolveWords (cleanWords path) root = some (FSNode.file c)) :
    SimpleHTTPRequestHandler.do_GET_resp root path = ⟨200, c⟩ := by
  simp [SimpleHTTPRequestHandler.do_GET_resp, h]

/-- Witness for C2 at a concrete file. -/
theorem get_existing_file_returns_exact_contents_witness :
    resolveWords (cleanWords "/index.html") sampleFS = some (FSNode.file [60, 104, 49, 62]) ∧
    SimpleHTTPRequestHandler.do_GET_resp sampleFS "/index.html" = ⟨200, [60, 104, 49, 62]⟩ :=
  ⟨rfl, get_existing_file_returns_exact_contents sampleFS "/index.html" [60, 104, 49, 62] rfl⟩

/-- C3: path cleaning removes every traversal component, and resolution only
descends into children of the root, so no content outside the working
directory can ever be served. -/
theorem traversal_confined_to_root (root : FSNode) (path : String) :
    ".." ∉ cleanWords path ∧
    ∀ n, resolveWords (cleanWords path) root = some n → Reachable root n :=
  ⟨not_dotdot_mem_cleanWords path, fun n h => resolveWords_reachable _ _ n h⟩

/-- Witness for C3: a traversal path still resolves inside the root. -/
theorem traversal_confined_to_root_witness :
    resolveWords (cleanWords "/../index.html") sampleFS =
      some (FSNode.file [60, 104, 49, 62]) ∧
    Reachable sampleFS (FSNode.file [60, 104, 49, 62]) :=
  ⟨rfl, (traversal_confined_to_root sampleFS "/../index.html").2 _ rfl⟩

/-- C4: a GET whose path resolves to nothing answers 404. -/
theorem get_missing_path_returns_404
    (root : FSNode) (path : String)
    (h : resolveWords (cleanWords path) root = none) :
    (SimpleHTTPRequestHandler.do_GET_resp root path).status = 404 := by
  simp [SimpleHTTPRequestHandler.do_GET_resp, h]

/-- Witness for C4 at a concrete missing path. -/
theorem get_missing_path_returns_404_witness :
    resolveWords (cleanWords "/missing") sampleFS = none ∧
    (SimpleHTTPRequestHandler.do_GET_resp sampleFS "/missing").status = 404 :=
  ⟨rfl, get_missing_path_returns_404 sampleFS "/missing" rfl⟩

/-- C5: the port is the fixed value 3000; when it is in use or the process
may not bind, startup crashes with the bind error and there is no retry or
alternate port, and a successful start is bound to host "" (all interfaces)
at exactly port 3000. -/
theorem fixed_port_bind_failure_crashes :
    PORT = 3000 ∧
    ∀ env : BindEnv,
      ((PORT ∈ env.portsInUse ∨ env.canBind = false) →
        startServer env = StartOutcome.bindErrorCrash) ∧
      (∀ h p, startServer env = StartOutcome.running h p → h = "" ∧ p = 3000) := by
  refine ⟨rfl, fun env => ⟨?_, ?_⟩⟩
  · intro hfail
    simp [startServer, TCPServer_bind, hfail]
  · intro h p hrun
    by_cases hc : PORT ∈ env.portsInUse ∨ env.canBind = false
    · simp [startServer, TCPServer_bind, hc] at hrun
    · simp only [startServer, TCPServer_bind, if_neg hc] at hrun
      cases hrun
      exact ⟨rfl, rfl⟩

/-- Witness for C5: with port 3000 already in use the start crashes. -/
theorem fixed_port_bind_failure_crashes_witness :
    (PORT ∈ ([3000] : List Nat) ∨ (true : Bool) = false) ∧
    startServer ⟨[3000], true⟩ = StartOutcome.bindErrorCrash :=
  ⟨Or.inl (by decide),
   (fixed_port_bind_failure_crashes.2 ⟨[3000], true⟩).1 (Or.inl (by decide))⟩

/-- C6: a GET whose path resolves to a directory answers 200, and the body is
the generated index listing, which carries an entry for every direct child. -/
theorem get_directory_lists_every_child
    (root : FSNode) (path : String) (cs : List (String × FSNode))
    (h : resolveWords (cleanWords path) root = some (FSNode.dir cs)) :
    (SimpleHTTPRequestHandler.do_GET_resp root path).status = 200 ∧
    ∀ p ∈ cs, ∃ pre post,
      (SimpleHTTPRequestHandler.do_GET_resp root path).body =
        pre ++ entryBytes p.1 ++ post := by
  constructor
  · simp [SimpleHTTPRequestHandler.do_GET_resp, h]
  · intro p hp
    simp only [SimpleHTTPRequestHandler.do_GET_resp, h]
    exact mem_listing_segment hp

/-- Witness for C6 at a concrete directory. -/
theorem get_directory_lists_every_child_witness :
    resolveWords (cleanWords "/sub") sampleFS =
      some (FSNode.dir [("a.txt", FSNode.file [97]), ("b.txt", FSNode.file [98])]) ∧
    (SimpleHTTPRequestHandler.do_GET_resp sampleFS "/sub").status = 200 ∧
    ∃ pre post, (SimpleHTTPRequestHandler.do_GET_resp sampleFS "/sub").body =
      pre ++ entryBytes "a.txt" ++ post :=
  ⟨rfl,
   (get_directory_lists_every_child sampleFS "/sub"
     [("a.txt", FSNode.file [97]), ("b.txt", FSNode.file [98])] rfl).1,
   (get_directory_lists_every_child sampleFS "/sub"
     [("a.txt", FSNode.file [97]), ("b.txt", FSNode.file [98])] rfl).2
     ("a.txt", FSNode.file [97]) (List.mem_cons_self _ _)⟩

/-- C7: any non-GET request is handled exactly by the inherited dispatch, and
a method the inherited handler does not know answers 501. -/
theorem non_get_uses_inherited_handler
    (s : ServerState) (req : Request) (hm : req.method ≠ "GET") :
    GetHandler.handle s req = (s, SimpleHTTPRequestHandler.handleMethod s.root req) ∧
    (req.method ≠ "HEAD" →
      (SimpleHTTPRequestHandler.handleMethod s.root req).status = 501) := by
  constructor
  · simp [GetHandler.handle, hm]
  · intro hh
    simp [SimpleHTTPRequestHandler.handleMethod, hm, hh]

/-- Witness for C7 at a concrete POST request. -/
theorem non_get_uses_inherited_handler_witness :
    (Request.mk "POST" "/" "h").method ≠ "GET" ∧
    GetHandler.handle ⟨sampleFS, []⟩ (Request.mk "POST" "/" "h") =
      (⟨sampleFS, []⟩, SimpleHTTPRequestHandler.handleMethod sampleFS (Request.mk "POST" "/" "h")) ∧
    (SimpleHTTPRequestHandler.handleMethod sampleFS (Request.mk "POST" "/" "h")).status = 501 :=
  ⟨by decide,
   (non_get_uses_inherited_handler ⟨sampleFS, []⟩ (Request.mk "POST" "/" "h") (by decide)).1,
   (non_get_uses_inherited_handler ⟨sampleFS, []⟩ (Request.mk "POST" "/" "h") (by decide)).2
     (by decide)⟩

/-- C8: repeating the same GET (or any) request against an unchanged
filesystem yields the identical response, and handling never changes the
served tree, so no mutated state can affect later responses. -/
theorem repeated_request_same_response (s : ServerState) (req : Request) :
    (GetHandler.handle (GetHandler.handle s req).1 req).2 = (GetHandler.handle s req).2 ∧
    (GetHandler.handle s req).1.root = s.root := by
  by_cases hm : req.method = "GET" <;> simp [GetHandler.handle, hm]

/-- C9: handling a request leaves the filesystem untouched; the only state
change is the single appended log line on a GET, and nothing on any other
method. -/
theorem handling_preserves_filesystem (s : ServerState) (req : Request) :
    (GetHandler.handle s req).1.root = s.root ∧
    ((req.method = "GET" ∧ (GetHandler.handle s req).1.log = s.log ++ [req.headers]) ∨
     (req.method ≠ "GET" ∧ (GetHandler.handle s req).1.log = s.log)) := by
  by_cases hm : req.method = "GET"
  · exact ⟨by simp [GetHandler.handle, hm], Or.inl ⟨hm, by simp [GetHandler.handle, hm]⟩⟩
  · exact ⟨by simp [GetHandler.handle, hm], Or.inr ⟨hm, by simp [GetHandler.handle, hm]⟩⟩

/-- C10: a HEAD request produces the inherited response (same status as the
corresponding GET, empty body) and writes no log line, since only do_GET is
overridden to log. -/
theorem head_served_but_not_logged
    (s : ServerState) (req : Request) (hm : req.method = "HEAD") :
    (GetHandler.handle s req).1 = s ∧
    (GetHandler.handle s req).2 =
      ⟨(SimpleHTTPRequestHandler.do_GET_resp s.root req.path).status, []⟩ := by
  constructor
  · simp [GetHandler.handle, hm]
  · simp [GetHandler.handle, SimpleHTTPRequestHandler.handleMethod,
      SimpleHTTPRequestHandler.do_HEAD_resp, hm]

/-- Witness for C10 at a concrete HEAD request. -/
theorem head_served_but_not_logged_witness :
    (Request.mk "HEAD" "/index.html" "h").method = "HEAD" ∧
    (GetHandler.handle ⟨sampleFS, ["old"]⟩ (Request.mk "HEAD" "/index.html" "h")).1
      = ⟨sampleFS, ["old"]⟩ ∧
    (GetHandler.handle ⟨sampleFS, ["old"]⟩ (Request.mk "HEAD" "/index.html" "h")).2
      = ⟨(SimpleHTTPRequestHandler.do_GET_resp sampleFS "/index.html").status, []⟩ :=
  ⟨rfl,
   (head_served_but_not_logged ⟨sampleFS, ["old"]⟩ (Request.mk "HEAD" "/index.html" "h") rfl).1,
   (head_served_but_not_logged ⟨sampleFS, ["old"]⟩ (Request.mk "HEAD" "/index.html" "h") rfl).2⟩

end SimpleServer
